import Mathlib

/-!
Verification development for the go_payment repository: a payment ingestion
and processing service.  The Go source is shallowly embedded: the account
store (Postgres `customer_accounts` / `processed_transactions` tables and the
SQL statements of `DatabaseService`) becomes explicit state passing over
lists keyed by primary key; monetary values (SQL `DECIMAL(15,2)`, Go
`float64` holding small decimals) are modelled as rationals; fallible calls
become `Except` / `Option` results; the Redis queue and cache become lists.
-/

namespace GoPayment

/-- Embeds the Go struct `api.CustomerAccount` (and the `customer_accounts`
row it is scanned from).  Timestamps irrelevant to the verified behaviour
(`deployment_date`, `created_at`, `updated_at`) are omitted;
`last_payment_date` is kept as an optional date string because
`UpdateCustomerBalance` writes it. -/
structure CustomerAccount where
  customer_id : String
  asset_value : ℚ
  term_weeks : Nat
  total_paid : ℚ
  outstanding_balance : ℚ
  last_payment_date : Option String
  payment_count : Nat
  version : Nat
deriving Repr, DecidableEq

/-- Embeds a row of the `processed_transactions` ledger table
(`transaction_reference` is its primary key; `processed_at` omitted). -/
structure LedgerRow where
  transaction_reference : String
  customer_id : String
  amount : ℚ
deriving Repr, DecidableEq

/-- Authoritative store state: the two tables owned by `DatabaseService`. -/
structure DBState where
  accounts : List CustomerAccount
  ledger : List LedgerRow
deriving Repr, DecidableEq

/-- Embeds the Go struct `api.PaymentPayload`.  `PaymentStatus` is a string
type in the source, so it stays a string here. -/
structure PaymentPayload where
  customer_id : String
  payment_status : String
  transaction_amount : String
  transaction_date : String
  transaction_reference : String
deriving Repr, DecidableEq

/-- Scans a decimal digit run, as the `fmt` verbs do: accumulated value,
number of digits consumed, rest of the input. -/
def scanDigits : Nat → Nat → List Char → Nat × Nat × List Char
  | acc, cnt, [] => (acc, cnt, [])
  | acc, cnt, c :: cs =>
    if c.isDigit then scanDigits (10 * acc + (c.toNat - 48)) (cnt + 1) cs
    else (acc, cnt, c :: cs)

/-- Embeds `fmt.Sscanf(s, "%f", &x)` as used by `processPayment` and
`GetCachedBalance`: an optional sign followed by a decimal mantissa with an
optional fractional part.  Go additionally accepts exponents and special
forms (`inf`, hex floats), none of which this development needs; crucially,
like Go's verb, a leading minus sign is accepted, so negative amounts parse
successfully. -/
def parseAmount (s : String) : Option ℚ :=
  let cs := s.data
  let signAndRest : Bool × List Char :=
    match cs with
    | '-' :: rest => (true, rest)
    | '+' :: rest => (false, rest)
    | _ => (false, cs)
  let neg := signAndRest.1
  let p1 := scanDigits 0 0 signAndRest.2
  let intPart := p1.1
  let intCnt := p1.2.1
  let p2 : Nat × Nat × List Char :=
    match p1.2.2 with
    | '.' :: rest => scanDigits 0 0 rest
    | other => (0, 0, other)
  let fracPart := p2.1
  let fracCnt := p2.2.1
  if intCnt + fracCnt = 0 then none
  else
    let mag : ℚ := (intPart : ℚ) + (fracPart : ℚ) / ((10 : ℚ) ^ fracCnt)
    some (if neg then -mag else mag)

/-- Embeds `DatabaseService.GetCustomer`: `SELECT ... WHERE customer_id = $1`
returning the first matching row, `none` standing for the "no rows" error. -/
def getCustomer (db : DBState) (customerID : String) : Option CustomerAccount :=
  db.accounts.find? (fun c => c.customer_id == customerID)

/-- The `WHERE customer_id = $1 AND version = $4` condition of the
`UpdateCustomerBalance` SQL statement. -/
def matchRow (customerID : String) (version : Nat) (c : CustomerAccount) : Bool :=
  c.customer_id == customerID && c.version == version

/-- The `SET` clause of the `UpdateCustomerBalance` SQL statement:
`total_paid = total_paid + $2`,
`outstanding_balance = GREATEST(0, asset_value - (total_paid + $2))`,
`last_payment_date = $3`, `payment_count = payment_count + 1`,
`version = version + 1`. -/
def applySet (amount : ℚ) (txnDate : String) (c : CustomerAccount) : CustomerAccount :=
  { c with
    total_paid := c.total_paid + amount,
    outstanding_balance := max 0 (c.asset_value - (c.total_paid + amount)),
    last_payment_date := some txnDate,
    payment_count := c.payment_count + 1,
    version := c.version + 1 }

/-- Embeds the `update_outstanding_balance` trigger function of the schema:
`NEW.outstanding_balance := GREATEST(0, NEW.asset_value - NEW.total_paid)`,
run BEFORE UPDATE OF `total_paid`. -/
def update_outstanding_balance (c : CustomerAccount) : CustomerAccount :=
  { c with outstanding_balance := max 0 (c.asset_value - c.total_paid) }

/-- The row produced by a successful versioned update: the SQL `SET` clause
followed by the before-update trigger. -/
def updatedRow (amount : ℚ) (txnDate : String) (c : CustomerAccount) : CustomerAccount :=
  update_outstanding_balance (applySet amount txnDate c)

/-- Embeds `DatabaseService.UpdateCustomerBalance`.  The Go function runs one
atomic `UPDATE ... WHERE customer_id = $1 AND version = $4 RETURNING
outstanding_balance`, scans the returned balance into a local it then
discards, and returns `(true, nil)` when a row was updated and
`(false, nil)` on "no rows in result set" — the latter covering both a
missing customer and a version mismatch.  The embedding returns the Go
result (the success boolean) together with the post state. -/
def updateCustomerBalance (db : DBState) (customerID : String) (amount : ℚ)
    (txnDate : String) (version : Nat) : Bool × DBState :=
  if db.accounts.any (matchRow customerID version) then
    (true,
      { db with
        accounts := db.accounts.map (fun c =>
          if matchRow customerID version c then updatedRow amount txnDate c else c) })
  else (false, db)

/-- The value the `RETURNING outstanding_balance` clause of
`UpdateCustomerBalance` hands back to the Go driver (which the Go function
scans and then discards), for the first row hit by the update. -/
def storeReturnedBalance (db : DBState) (customerID : String) (amount : ℚ)
    (txnDate : String) (version : Nat) : Option ℚ :=
  (db.accounts.find? (matchRow customerID version)).map
    (fun c => (updatedRow amount txnDate c).outstanding_balance)

/-- Embeds `DatabaseService.IsTransactionProcessed`:
`SELECT EXISTS(SELECT 1 FROM processed_transactions WHERE
transaction_reference = $1)`. -/
def isTransactionProcessed (db : DBState) (txnRef : String) : Bool :=
  db.ledger.any (fun r => r.transaction_reference == txnRef)

/-- Embeds `DatabaseService.MarkTransactionProcessed`:
`INSERT INTO processed_transactions ... ON CONFLICT (transaction_reference)
DO NOTHING`.  A conflicting reference leaves the table unchanged and is not
an error. -/
def markTransactionProcessed (db : DBState) (txnRef customerID : String)
    (amount : ℚ) : DBState :=
  if db.ledger.any (fun r => r.transaction_reference == txnRef) then db
  else
    { db with
      ledger := { transaction_reference := txnRef, customer_id := customerID,
                  amount := amount } :: db.ledger }

/-- State visible to a worker: the authoritative store plus the two Redis
cache keyspaces it writes after a commit (`txn:` dedup marks and `balance:`
entries; TTLs are not modelled). -/
structure SysState where
  db : DBState
  dedupMarks : List String
  balanceCache : List (String × ℚ)
deriving Repr, DecidableEq

/-- Worker outcome of `processPayment`: the Go function returns `nil` both
when the item was applied and when the authoritative dedup check dropped a
replay, and distinct error values otherwise. -/
inductive ProcResult where
  | ok
  | invalidAmount
  | getCustomerError
  | retriesExhausted
deriving Repr, DecidableEq

/-- The balance the worker computes for the cache after a successful update:
`newBalance := customer.OutstandingBalance - amount; if newBalance < 0 then
0`, from the customer snapshot fetched before the update. -/
def workerNewBalance (customer : CustomerAccount) (amount : ℚ) : ℚ :=
  let newBalance := customer.outstanding_balance - amount
  if newBalance < 0 then 0 else newBalance

/-- Post-commit bookkeeping of `processPayment`'s success branch:
`MarkTransactionProcessed`, `MarkDuplicate` (24h TTL not modelled) and
`CacheBalance` on the pre-fetch snapshot. -/
def commitEffects (s : SysState) (db' : DBState) (p : PaymentPayload)
    (amount : ℚ) (customer : CustomerAccount) : SysState :=
  { db := markTransactionProcessed db' p.transaction_reference p.customer_id amount,
    dedupMarks := p.transaction_reference :: s.dedupMarks,
    balanceCache := (p.customer_id, workerNewBalance customer amount) :: s.balanceCache }

/-- The optimistic-update retry loop of `processPayment`, run sequentially
against the deterministic store (no interleaved writers, no transport
failures): `for attempt := 0; attempt < maxRetries; attempt++`, each
iteration re-fetching the customer and attempting the versioned update;
a spent iteration budget yields the "failed after 3 retries" error. -/
def processAttempts (p : PaymentPayload) (amount : ℚ) :
    Nat → SysState → ProcResult × SysState
  | 0, s => (.retriesExhausted, s)
  | fuel + 1, s =>
    match getCustomer s.db p.customer_id with
    | none => (.getCustomerError, s)
    | some customer =>
      let r := updateCustomerBalance s.db p.customer_id amount
        p.transaction_date customer.version
      if r.1 then (.ok, commitEffects s r.2 p amount customer)
      else processAttempts p amount fuel { s with db := r.2 }

/-- Embeds `PaymentProcessor.processPayment` in the sequential setting:
authoritative dedup check first, then amount parse, then the retry loop
with `maxRetries = 3`. -/
def processPayment (s : SysState) (p : PaymentPayload) : ProcResult × SysState :=
  if isTransactionProcessed s.db p.transaction_reference then (.ok, s)
  else
    match parseAmount p.transaction_amount with
    | none => (.invalidAmount, s)
    | some amount => processAttempts p amount 3 s

/-- Sequential replay: run `processPayment` on the same payload `n` times. -/
def iterProcess (p : PaymentPayload) : Nat → SysState → SysState
  | 0, s => s
  | n + 1, s => iterProcess p n (processPayment s p).2

/-!  Trace model of the retry loop.  Under concurrency the store's answers at
each attempt are not determined by the worker alone, so the loop is also
embedded against an environment oracle giving, per attempt index, the
combined outcome of that attempt's `GetCustomer` and `UpdateCustomerBalance`
calls; the loop records its externally visible events. -/

/-- Outcome the environment hands the worker on one attempt:
`fetchFail` — `GetCustomer` errors; `updFail` — `UpdateCustomerBalance`
errors; `applied` — the versioned update succeeded; `conflict` — the update
matched no row (version mismatch). -/
inductive DBResp where
  | fetchFail
  | updFail
  | applied
  | conflict
deriving Repr, DecidableEq

/-- Externally visible events of one `processPayment` retry loop:
customer fetch and update attempt at index `k`, a backoff sleep in
milliseconds, and (never emitted by the loop) a re-enqueue of the item. -/
inductive WEvent where
  | fetch (k : Nat)
  | update (k : Nat)
  | sleep (ms : Nat)
  | enqueue
deriving Repr, DecidableEq

/-- Loop results in the trace model, matching the Go error returns. -/
inductive LoopResult where
  | ok
  | getCustomerError
  | updateError
  | retryExhausted
deriving Repr, DecidableEq

/-- One step of the Go loop `for attempt := 0; attempt < maxRetries;
attempt++` starting at index `k` with `fuel = maxRetries - k` iterations
left: fetch the customer, attempt the update, and on a conflict sleep
`time.Duration(attempt+1) * 10ms` and retry. -/
def processLoopFrom (env : Nat → DBResp) : Nat → Nat → LoopResult × List WEvent
  | _, 0 => (.retryExhausted, [])
  | k, fuel + 1 =>
    match env k with
    | .fetchFail => (.getCustomerError, [.fetch k])
    | .updFail => (.updateError, [.fetch k, .update k])
    | .applied => (.ok, [.fetch k, .update k])
    | .conflict =>
      let rest := processLoopFrom env (k + 1) fuel
      (rest.1, .fetch k :: .update k :: .sleep (10 * (k + 1)) :: rest.2)

/-- The full retry loop of `processPayment`: `maxRetries = 3`, starting at
attempt index 0. -/
def processLoop (env : Nat → DBResp) : LoopResult × List WEvent :=
  processLoopFrom env 0 3

/-!  Ingestion endpoint.  `handlePayment` is embedded against an oracle
giving the outcome of each of its external calls. -/

/-- Error cases of `DatabaseService.GetCustomer` as the ingestion handler can
observe them: the pgx "no rows" error for a missing customer, or any other
storage/transport error.  The Go handler receives both as a non-nil `err`. -/
inductive GetErr where
  | noRows
  | storageErr
deriving Repr, DecidableEq

/-- Embeds the Go struct `api.PaymentResponse`. -/
structure PaymentResponse where
  status : String
  message : String
  transaction_reference : String
  customer_id : String
  remaining_balance : Option ℚ
deriving Repr, DecidableEq

/-- HTTP responses `handlePayment` can emit. -/
inductive HTTPResp where
  | badRequest (msg : String)
  | notFound404
  | internal500 (msg : String)
  | ok200 (body : PaymentResponse)
deriving Repr, DecidableEq

/-- Outcomes of the external calls `handlePayment` makes, one field per call
site in source order: the Redis duplicate check, the customer fetch on the
duplicate path, the customer fetch before enqueue, the enqueue itself, and
the cached-balance read. -/
structure IngressEnv where
  cacheDup : Except Unit Bool
  getCustDup : Except GetErr CustomerAccount
  getCust : Except GetErr CustomerAccount
  enq : Except Unit Unit
  cachedBal : Except Unit (Option ℚ)

/-- Embeds `RedisService.IsDuplicate`: `exists, err := Client.Exists(...)`;
the go-redis client yields the zero count alongside an error, so the
returned pair is `(exists > 0, err)` with the flag false on error. -/
def isDuplicateResult (call : Except Unit Bool) : Bool × Bool :=
  match call with
  | .ok b => (b, false)
  | .error _ => (false, true)

/-- Embeds the gin binding tag `startswith=GIG` on `customer_id`: the
field's characters begin with `G`, `I`, `G`. -/
def startsWithGIG (s : String) : Bool :=
  match s.data with
  | 'G' :: 'I' :: 'G' :: _ => true
  | _ => false

/-- Embeds the gin binding tag `required` on a string field: non-empty. -/
def requiredOK (s : String) : Bool :=
  !s.data.isEmpty

/-- The gin binding tags of `PaymentPayload`: every field `required` and
`customer_id` additionally `startswith=GIG`. -/
def bindOK (p : PaymentPayload) : Bool :=
  startsWithGIG p.customer_id && requiredOK p.customer_id
    && requiredOK p.payment_status && requiredOK p.transaction_amount
    && requiredOK p.transaction_date && requiredOK p.transaction_reference

/-- Embeds `APIServer.handlePayment`: bind/validate, gate on `COMPLETE`,
fast duplicate check (a cache error is logged and ignored), early duplicate
response with best-effort customer fetch, customer existence check (any
fetch error answers 404), enqueue (failure answers 500), then the accepted
response with the cached balance preferred over the fetched one. -/
def handlePayment (env : IngressEnv) (p : PaymentPayload) : HTTPResp :=
  if !bindOK p then .badRequest "binding failed"
  else if p.payment_status != "COMPLETE" then
    .badRequest ("Only COMPLETE payments accepted. Received: " ++ p.payment_status)
  else
    let isDup := (isDuplicateResult env.cacheDup).1
    if isDup then
      let customerOpt : Option CustomerAccount :=
        match env.getCustDup with
        | .ok c => some c
        | .error _ => none
      .ok200
        { status := "duplicate", message := "Transaction already processed",
          transaction_reference := p.transaction_reference,
          customer_id := p.customer_id,
          remaining_balance := customerOpt.map (fun c => c.outstanding_balance) }
    else
      match env.getCust with
      | .error _ => .notFound404
      | .ok customer =>
        match env.enq with
        | .error _ => .internal500 "Failed to queue payment"
        | .ok _ =>
          let cached : Option ℚ :=
            match env.cachedBal with
            | .ok v => v
            | .error _ => none
          let currentBalance :=
            match cached with
            | some b => b
            | none => customer.outstanding_balance
          .ok200
            { status := "accepted", message := "Payment accepted for processing",
              transaction_reference := p.transaction_reference,
              customer_id := p.customer_id,
              remaining_balance := some currentBalance }

/-!  Work queue dequeue. -/

/-- Error cases of `RedisService.DequeuePayment`: `popError` — `BLPop`
returned an error (including `redis.Nil` on timeout); `decodeError` —
`json.Unmarshal` of the popped bytes failed. -/
inductive DequeueError where
  | popError
  | decodeError
deriving Repr, DecidableEq

/-- Embeds `RedisService.DequeuePayment` over a queue of raw entries, with
`decode` standing for `json.Unmarshal` into `PaymentPayload`.  `BLPop`
removes the head before the decode runs; a decode failure returns
`(nil, err)` with the entry already gone from the queue.  (The defensive
`len(result) < 2` branch is unreachable: a successful `BLPop` always yields
the key/value pair.) -/
def dequeuePayment (decode : String → Option PaymentPayload)
    (queue : List String) : Except DequeueError (Option PaymentPayload) × List String :=
  match queue with
  | [] => (.error .popError, [])
  | b :: rest =>
    match decode b with
    | some p => (.ok (some p), rest)
    | none => (.error .decodeError, rest)

/-!  Helper lemmas about the account store. -/

theorem updatedRow_customer_id (amount : ℚ) (txnDate : String)
    (c : CustomerAccount) : (updatedRow amount txnDate c).customer_id = c.customer_id :=
  rfl

theorem updatedRow_total_paid (amount : ℚ) (txnDate : String)
    (c : CustomerAccount) : (updatedRow amount txnDate c).total_paid = c.total_paid + amount :=
  rfl

theorem matchRow_self (customerID : String) (c : CustomerAccount)
    (h : (c.customer_id == customerID) = true) :
    matchRow customerID c.version c = true := by
  simp [matchRow, h]

theorem find?_map_matchRow (l : List CustomerAccount) (customerID : String)
    (c : CustomerAccount) (f : CustomerAccount → CustomerAccount)
    (hf : (f c).customer_id = c.customer_id)
    (h : l.find? (fun x => x.customer_id == customerID) = some c) :
    (l.map (fun x => if matchRow customerID c.version x then f x else x)).find?
      (fun x => x.customer_id == customerID) = some (f c) := by
  induction l with
  | nil => simp at h
  | cons x xs ih =>
    by_cases hx : (x.customer_id == customerID) = true
    · have hxc : x = c := by
        have hh := h
        simp [List.find?_cons, hx] at hh
        exact hh
      subst hxc
      have hm : matchRow customerID x.version x = true := matchRow_self customerID x hx
      have hfc : ((f x).customer_id == customerID) = true := by
        rw [hf]; exact hx
      simp [List.find?_cons, hm, hfc]
    · have hm : matchRow customerID c.version x = false := by
        simp [matchRow, hx]
      have h' : xs.find? (fun y => y.customer_id == customerID) = some c := by
        simpa [List.find?_cons, hx] using h
      simpa [List.find?_cons, hm, hx] using ih h'

theorem updateCustomerBalance_found (db : DBState) (customerID : String)
    (amount : ℚ) (txnDate : String) (c : CustomerAccount)
    (h : getCustomer db customerID = some c) :
    (updateCustomerBalance db customerID amount txnDate c.version).1 = true
    ∧ getCustomer (updateCustomerBalance db customerID amount txnDate c.version).2 customerID
        = some (updatedRow amount txnDate c)
    ∧ (updateCustomerBalance db customerID amount txnDate c.version).2.ledger = db.ledger := by
  have h0 : db.accounts.find? (fun x => x.customer_id == customerID) = some c := h
  have hmem : c ∈ db.accounts := List.mem_of_find?_eq_some h0
  have hc : (c.customer_id == customerID) = true := by
    have hp := List.find?_some h0
    simpa using hp
  have hany : db.accounts.any (matchRow customerID c.version) = true :=
    List.any_eq_true.mpr ⟨c, hmem, matchRow_self customerID c hc⟩
  unfold updateCustomerBalance
  rw [hany]
  refine ⟨rfl, ?_, rfl⟩
  simpa [getCustomer] using
    find?_map_matchRow db.accounts customerID c (updatedRow amount txnDate)
      (updatedRow_customer_id amount txnDate c) h

theorem updateCustomerBalance_ledger (db : DBState) (customerID : String)
    (amount : ℚ) (txnDate : String) (version : Nat) :
    (updateCustomerBalance db customerID amount txnDate version).2.ledger = db.ledger := by
  unfold updateCustomerBalance
  split <;> rfl

theorem markTransactionProcessed_accounts (db : DBState) (txnRef customerID : String)
    (amount : ℚ) :
    (markTransactionProcessed db txnRef customerID amount).accounts = db.accounts := by
  unfold markTransactionProcessed
  split <;> rfl

theorem markTransactionProcessed_new (db : DBState) (txnRef customerID : String)
    (amount : ℚ) (h : isTransactionProcessed db txnRef = false) :
    (markTransactionProcessed db txnRef customerID amount).ledger
      = { transaction_reference := txnRef, customer_id := customerID,
          amount := amount } :: db.ledger := by
  unfold markTransactionProcessed
  unfold isTransactionProcessed at h
  rw [h]
  rfl

theorem markTransactionProcessed_dup (db : DBState) (txnRef customerID : String)
    (amount : ℚ) (h : isTransactionProcessed db txnRef = true) :
    markTransactionProcessed db txnRef customerID amount = db := by
  unfold markTransactionProcessed
  unfold isTransactionProcessed at h
  simp [h]

/-!  Helper lemmas about the sequential worker. -/

theorem processPayment_replay (s : SysState) (p : PaymentPayload)
    (h : isTransactionProcessed s.db p.transaction_reference = true) :
    processPayment s p = (.ok, s) := by
  unfold processPayment
  rw [h]
  rfl

theorem processPayment_first (s : SysState) (p : PaymentPayload) (a : ℚ)
    (c : CustomerAccount)
    (hnew : isTransactionProcessed s.db p.transaction_reference = false)
    (hparse : parseAmount p.transaction_amount = some a)
    (hget : getCustomer s.db p.customer_id = some c) :
    processPayment s p =
      (.ok, commitEffects s
        (updateCustomerBalance s.db p.customer_id a p.transaction_date c.version).2
        p a c) := by
  have hfound := updateCustomerBalance_found s.db p.customer_id a p.transaction_date c hget
  unfold processPayment
  rw [hnew, hparse]
  simp only [Bool.false_eq_true, if_false]
  unfold processAttempts
  rw [hget]
  simp only [hfound.1, if_true]

theorem iterProcess_fix (p : PaymentPayload) (n : Nat) (s : SysState)
    (h : isTransactionProcessed s.db p.transaction_reference = true) :
    iterProcess p n s = s := by
  induction n with
  | zero => rfl
  | succ m ih =>
    unfold iterProcess
    rw [processPayment_replay s p h]
    exact ih

theorem processPayment_first_state (s : SysState) (p : PaymentPayload) (a : ℚ)
    (c : CustomerAccount)
    (hnew : isTransactionProcessed s.db p.transaction_reference = false)
    (hparse : parseAmount p.transaction_amount = some a)
    (hget : getCustomer s.db p.customer_id = some c) :
    isTransactionProcessed (processPayment s p).2.db p.transaction_reference = true
    ∧ ((processPayment s p).2.db.ledger.countP
        (fun r => r.transaction_reference == p.transaction_reference)) = 1
    ∧ getCustomer (processPayment s p).2.db p.customer_id = some (updatedRow a p.transaction_date c)
    ∧ (processPayment s p).2.balanceCache = (p.customer_id, workerNewBalance c a) :: s.balanceCache := by
  have hfound := updateCustomerBalance_found s.db p.customer_id a p.transaction_date c hget
  rw [processPayment_first s p a c hnew hparse hget]
  have hledger1 : (updateCustomerBalance s.db p.customer_id a p.transaction_date c.version).2.ledger
      = s.db.ledger := hfound.2.2
  have hnew' : isTransactionProcessed
      (updateCustomerBalance s.db p.customer_id a p.transaction_date c.version).2
      p.transaction_reference = false := by
    unfold isTransactionProcessed at hnew ⊢
    rw [hledger1]
    exact hnew
  have hmark := markTransactionProcessed_new
    (updateCustomerBalance s.db p.customer_id a p.transaction_date c.version).2
    p.transaction_reference p.customer_id a hnew'
  have hcount0 : (s.db.ledger.countP
      (fun r => r.transaction_reference == p.transaction_reference)) = 0 := by
    unfold isTransactionProcessed at hnew
    rw [List.countP_eq_zero]
    intro r hr hcontra
    have hany : s.db.ledger.any
        (fun q => q.transaction_reference == p.transaction_reference) = true :=
      List.any_eq_true.mpr ⟨r, hr, by simpa using hcontra⟩
    rw [hnew] at hany
    exact Bool.false_ne_true hany
  refine ⟨?_, ?_, ?_, rfl⟩
  · unfold isTransactionProcessed commitEffects
    simp only [hmark]
    simp [hledger1]
  · unfold commitEffects
    simp only [hmark]
    rw [List.countP_cons]
    simp [hledger1, hcount0]
  · unfold commitEffects getCustomer
    simp only [markTransactionProcessed_accounts]
    exact hfound.2.1

/-!  Sample states used by witnesses and counterexamples. -/

/-- A freshly seeded account: asset value 100, nothing paid, version 0. -/
def acct0 : CustomerAccount :=
  { customer_id := "GIG00001", asset_value := 100, term_weeks := 50,
    total_paid := 0, outstanding_balance := 100, last_payment_date := none,
    payment_count := 0, version := 0 }

/-- An account with 10 paid against an asset of 1000000. -/
def acct10 : CustomerAccount :=
  { customer_id := "GIG00001", asset_value := 1000000, term_weeks := 50,
    total_paid := 10, outstanding_balance := 999990, last_payment_date := none,
    payment_count := 1, version := 0 }

/-- An overpaid account: 150 paid against an asset of 100, balance saturated
at 0 (the state the reference schema produces on overshoot). -/
def acctOver : CustomerAccount :=
  { customer_id := "GIG00001", asset_value := 100, term_weeks := 50,
    total_paid := 150, outstanding_balance := 0, last_payment_date := none,
    payment_count := 3, version := 0 }

/-- A payload carrying a negative amount string, which the ingestion
endpoint admits (its binding tags check presence only). -/
def payNeg5 : PaymentPayload :=
  { customer_id := "GIG00001", payment_status := "COMPLETE",
    transaction_amount := "-5", transaction_date := "2025-11-07 14:54:16",
    transaction_reference := "R9" }

/-- A payload carrying amount `-10`. -/
def payNeg10 : PaymentPayload :=
  { customer_id := "GIG00001", payment_status := "COMPLETE",
    transaction_amount := "-10", transaction_date := "2025-11-07 14:54:16",
    transaction_reference := "R2" }

/-- A well-formed payload for 30 against `acct0`. -/
def pay30 : PaymentPayload :=
  { customer_id := "GIG00001", payment_status := "COMPLETE",
    transaction_amount := "30", transaction_date := "2025-11-07 14:54:16",
    transaction_reference := "R1" }

/-- Store holding only `acct0`. -/
def db0 : DBState := { accounts := [acct0], ledger := [] }

/-- Store holding only `acct10`. -/
def db10 : DBState := { accounts := [acct10], ledger := [] }

/-- Store holding only `acctOver`. -/
def dbOver : DBState := { accounts := [acctOver], ledger := [] }

/-- Worker-visible state over `db10` with empty caches and queue marks. -/
def sys10 : SysState := { db := db10, dedupMarks := [], balanceCache := [] }

/-- Worker-visible state over `dbOver` with empty caches. -/
def sysOver : SysState := { db := dbOver, dedupMarks := [], balanceCache := [] }

/-- Worker-visible state over `db0` with empty caches. -/
def sys0 : SysState := { db := db0, dedupMarks := [], balanceCache := [] }

/-!  Char digit facts, proved once for reuse in concrete parses. -/

theorem isDigit0 : '0'.isDigit = true := by decide

theorem isDigit1 : '1'.isDigit = true := by decide

theorem isDigit3 : '3'.isDigit = true := by decide

theorem isDigit5 : '5'.isDigit = true := by decide

/-!  Claim C1. -/

/-- C1 is refuted as stated: the payload with `transaction_amount = "-5"`
passes ingestion (the handler accepts it), `fmt.Sscanf`'s `%f` parses it to
the negative rational −5, and the successful balance update moves
`total_paid` from 10 down to 5, which is not ≥ 10. -/
theorem C1_counterexample :
    parseAmount "-5" = some (-5)
    ∧ handlePayment
        { cacheDup := .ok false, getCustDup := .error .noRows, getCust := .ok acct10,
          enq := .ok (), cachedBal := .ok none } payNeg5
      = HTTPResp.ok200
          { status := "accepted", message := "Payment accepted for processing",
            transaction_reference := "R9", customer_id := "GIG00001",
            remaining_balance := some 999990 }
    ∧ (getCustomer (processPayment sys10 payNeg5).2.db "GIG00001").map
        CustomerAccount.total_paid = some 5
    ∧ ¬ ((10 : ℚ) ≤ 5) := by
  have hparse : parseAmount "-5" = some (-5) := by
    simp [parseAmount, scanDigits, isDigit5]
  have hfacts := processPayment_first_state sys10
    payNeg5 (-5) acct10 (by simp [isTransactionProcessed, sys10, db10]) hparse
    (by simp [getCustomer, sys10, db10, acct10, payNeg5])
  refine ⟨hparse, ?_, ?_, by norm_num⟩
  · simp [handlePayment, bindOK, startsWithGIG, requiredOK, isDuplicateResult,
      payNeg5, acct10]
  · show Option.map CustomerAccount.total_paid
      (getCustomer (processPayment sys10 payNeg5).2.db payNeg5.customer_id) = some 5
    rw [hfacts.2.2.1]
    simp [updatedRow, update_outstanding_balance, applySet, acct10]
    norm_num

/-- C1 (amended): for every successful `UpdateCustomerBalance` whose amount
is non-negative, the account's `total_paid` after the call is ≥ its value
before; the code itself never rejects a negative amount, so the bound on
the amount is an assumption, not a property of the code. -/
theorem C1_total_paid_monotone (db : DBState) (customerID : String) (amount : ℚ)
    (txnDate : String) (c : CustomerAccount)
    (hget : getCustomer db customerID = some c) (ha : 0 ≤ amount) :
    (updateCustomerBalance db customerID amount txnDate c.version).1 = true
    ∧ ∃ c', getCustomer (updateCustomerBalance db customerID amount txnDate c.version).2 customerID
          = some c'
        ∧ c.total_paid ≤ c'.total_paid := by
  have hfound := updateCustomerBalance_found db customerID amount txnDate c hget
  refine ⟨hfound.1, updatedRow amount txnDate c, hfound.2.1, ?_⟩
  rw [updatedRow_total_paid]
  linarith

/-- Witness for `C1_total_paid_monotone` at `acct0` and amount 30. -/
theorem C1_total_paid_monotone_witness :
    (updateCustomerBalance db0 "GIG00001" 30 "d" acct0.version).1 = true
    ∧ ∃ c', getCustomer (updateCustomerBalance db0 "GIG00001" 30 "d" acct0.version).2 "GIG00001"
          = some c'
        ∧ acct0.total_paid ≤ c'.total_paid :=
  C1_total_paid_monotone db0 "GIG00001" 30 "d" acct0
    (by simp [getCustomer, db0, acct0]) (by norm_num)

/-!  Claim C2. -/

/-- C2 is refuted as stated: on the overpaid account `acctOver` with the
admitted amount `-10`, the update succeeds and the store's `RETURNING`
clause computes outstanding balance 0, yet the worker caches 10 — the
fallback `max(0, pre-read outstanding − amount)` — because
`UpdateCustomerBalance` returns only a boolean and discards the store's
value. -/
theorem C2_counterexample :
    parseAmount "-10" = some (-10)
    ∧ (updateCustomerBalance dbOver "GIG00001" (-10) "2025-11-07 14:54:16" 0).1 = true
    ∧ storeReturnedBalance dbOver "GIG00001" (-10) "2025-11-07 14:54:16" 0 = some 0
    ∧ (processPayment sysOver payNeg10).2.balanceCache = [("GIG00001", (10 : ℚ))]
    ∧ ((10 : ℚ) ≠ 0) := by
  have hparse : parseAmount "-10" = some (-10) := by
    simp [parseAmount, scanDigits, isDigit0, isDigit1]
  have hfacts := processPayment_first_state sysOver
    payNeg10 (-10) acctOver (by simp [isTransactionProcessed, sysOver, dbOver]) hparse
    (by simp [getCustomer, sysOver, dbOver, acctOver, payNeg10])
  refine ⟨hparse, ?_, ?_, ?_, by norm_num⟩
  · exact (updateCustomerBalance_found dbOver "GIG00001" (-10) "2025-11-07 14:54:16"
      acctOver (by simp [getCustomer, dbOver, acctOver])).1
  · simp [storeReturnedBalance, dbOver, acctOver, matchRow, updatedRow,
      update_outstanding_balance, applySet]
    norm_num
  · rw [hfacts.2.2.2]
    simp [payNeg10, workerNewBalance, acctOver, sysOver]

/-- C2 (amended): `UpdateCustomerBalance` returns only a success boolean
(the `RETURNING outstanding_balance` value is scanned and discarded), and
after every successful sequential processing the worker caches
`max(0, pre-read outstanding_balance − amount)` computed from the customer
snapshot fetched before the update — never the store's returned value. -/
theorem C2_cache_gets_fallback (s : SysState) (p : PaymentPayload) (a : ℚ)
    (c : CustomerAccount)
    (hnew : isTransactionProcessed s.db p.transaction_reference = false)
    (hparse : parseAmount p.transaction_amount = some a)
    (hget : getCustomer s.db p.customer_id = some c) :
    (processPayment s p).2.balanceCache
      = (p.customer_id, workerNewBalance c a) :: s.balanceCache
    ∧ workerNewBalance c a = max 0 (c.outstanding_balance - a) := by
  refine ⟨(processPayment_first_state s p a c hnew hparse hget).2.2.2, ?_⟩
  by_cases h : c.outstanding_balance - a < 0
  · simp [workerNewBalance, h, max_eq_left (le_of_lt h)]
  · simp [workerNewBalance, h, max_eq_right (not_lt.mp h)]

/-- Witness for `C2_cache_gets_fallback`: processing 30 against `acct0`. -/
theorem C2_cache_gets_fallback_witness :
    (processPayment sys0 pay30).2.balanceCache
      = (pay30.customer_id, workerNewBalance acct0 30) :: sys0.balanceCache
    ∧ workerNewBalance acct0 30 = max 0 (acct0.outstanding_balance - 30) :=
  C2_cache_gets_fallback sys0 pay30 30 acct0
    (by simp [isTransactionProcessed, sys0, db0])
    (by simp [parseAmount, scanDigits, pay30, isDigit3, isDigit0])
    (by simp [getCustomer, sys0, db0, acct0, pay30])

/-!  Claim C3. -/

/-- C3: processing the same payload N ≥ 1 times sequentially yields the same
state as processing it once; the ledger then holds exactly one row for the
payload's reference, `total_paid` has gained the amount exactly once (the
replayed runs are dropped by the authoritative dedup check before any
update), and a further duplicate ledger insert for that reference leaves
the ledger unchanged rather than erroring. -/
theorem C3_replay_idempotent (s : SysState) (p : PaymentPayload) (a : ℚ)
    (c : CustomerAccount) (N : Nat) (hN : 1 ≤ N)
    (hparse : parseAmount p.transaction_amount = some a)
    (hget : getCustomer s.db p.customer_id = some c)
    (hnew : isTransactionProcessed s.db p.transaction_reference = false) :
    iterProcess p N s = iterProcess p 1 s
    ∧ ((iterProcess p N s).db.ledger.countP
        (fun r => r.transaction_reference == p.transaction_reference)) = 1
    ∧ (∃ c', getCustomer (iterProcess p N s).db p.customer_id = some c'
        ∧ c'.total_paid = c.total_paid + a)
    ∧ markTransactionProcessed (iterProcess p N s).db p.transaction_reference
        p.customer_id a = (iterProcess p N s).db := by
  obtain ⟨m, rfl⟩ : ∃ m, N = m + 1 := ⟨N - 1, (Nat.succ_pred_eq_of_pos hN).symm⟩
  have hfacts := processPayment_first_state s p a c hnew hparse hget
  have hdone : isTransactionProcessed (processPayment s p).2.db p.transaction_reference = true :=
    hfacts.1
  have hiter : ∀ n, iterProcess p n (processPayment s p).2 = (processPayment s p).2 :=
    fun n => iterProcess_fix p n (processPayment s p).2 hdone
  have hNs : iterProcess p (m + 1) s = (processPayment s p).2 := by
    have hstep : iterProcess p (m + 1) s = iterProcess p m (processPayment s p).2 := rfl
    rw [hstep]
    exact hiter m
  have h1s : iterProcess p 1 s = (processPayment s p).2 := by
    have hstep : iterProcess p 1 s = iterProcess p 0 (processPayment s p).2 := rfl
    rw [hstep]
    exact hiter 0
  refine ⟨by rw [hNs, h1s], ?_, ?_, ?_⟩
  · rw [hNs]
    exact hfacts.2.1
  · rw [hNs]
    exact ⟨updatedRow a p.transaction_date c, hfacts.2.2.1,
      updatedRow_total_paid a p.transaction_date c⟩
  · rw [hNs]
    exact markTransactionProcessed_dup (processPayment s p).2.db p.transaction_reference
      p.customer_id a hdone

/-- Witness for `C3_replay_idempotent`: the `pay30` payload replayed twice
against `acct0`. -/
theorem C3_replay_idempotent_witness :
    iterProcess pay30 2 sys0 = iterProcess pay30 1 sys0
    ∧ ((iterProcess pay30 2 sys0).db.ledger.countP
        (fun r => r.transaction_reference == pay30.transaction_reference)) = 1
    ∧ (∃ c', getCustomer (iterProcess pay30 2 sys0).db pay30.customer_id = some c'
        ∧ c'.total_paid = acct0.total_paid + 30)
    ∧ markTransactionProcessed (iterProcess pay30 2 sys0).db pay30.transaction_reference
        pay30.customer_id 30 = (iterProcess pay30 2 sys0).db :=
  C3_replay_idempotent sys0 pay30 30 acct0 2 (by norm_num)
    (by simp [parseAmount, scanDigits, pay30, isDigit3, isDigit0])
    (by simp [getCustomer, sys0, db0, acct0, pay30])
    (by simp [isTransactionProcessed, sys0, db0])

/-!  Claim C4. -/

/-- C4: a committed `UpdateCustomerBalance` (called, as the worker does, with
the version just fetched for the customer) succeeds and leaves the updated
row satisfying `outstanding_balance = max(0, asset_value − total_paid)`; in
particular when the new `total_paid` exceeds `asset_value` the outstanding
balance is exactly 0, never negative. -/
theorem C4_outstanding_invariant (db : DBState) (customerID : String) (amount : ℚ)
    (txnDate : String) (c c' : CustomerAccount)
    (hget : getCustomer db customerID = some c)
    (hpost : getCustomer (updateCustomerBalance db customerID amount txnDate c.version).2
        customerID = some c') :
    (updateCustomerBalance db customerID amount txnDate c.version).1 = true
    ∧ c'.outstanding_balance = max 0 (c'.asset_value - c'.total_paid)
    ∧ (c'.asset_value < c'.total_paid → c'.outstanding_balance = 0) := by
  have hfound := updateCustomerBalance_found db customerID amount txnDate c hget
  rw [hfound.2.1] at hpost
  obtain rfl : c' = updatedRow amount txnDate c := by
    injection hpost with hh
    exact hh.symm
  refine ⟨hfound.1, rfl, ?_⟩
  intro hlt
  show max 0 ((applySet amount txnDate c).asset_value - (applySet amount txnDate c).total_paid) = 0
  have hle : (applySet amount txnDate c).asset_value - (applySet amount txnDate c).total_paid ≤ 0 := by
    have : (updatedRow amount txnDate c).asset_value = (applySet amount txnDate c).asset_value := rfl
    have h2 : (updatedRow amount txnDate c).total_paid = (applySet amount txnDate c).total_paid := rfl
    rw [this, h2] at hlt
    linarith
  exact max_eq_left hle

/-- Witness for `C4_outstanding_invariant`: paying 150 against `acct0`
(asset 100) saturates the balance at 0. -/
theorem C4_outstanding_invariant_witness :
    (updateCustomerBalance db0 "GIG00001" 150 "d" acct0.version).1 = true
    ∧ (updatedRow 150 "d" acct0).outstanding_balance
        = max 0 ((updatedRow 150 "d" acct0).asset_value - (updatedRow 150 "d" acct0).total_paid)
    ∧ ((updatedRow 150 "d" acct0).asset_value < (updatedRow 150 "d" acct0).total_paid →
        (updatedRow 150 "d" acct0).outstanding_balance = 0) :=
  C4_outstanding_invariant db0 "GIG00001" 150 "d" acct0 (updatedRow 150 "d" acct0)
    (by simp [getCustomer, db0, acct0])
    (by
      have hfound := updateCustomerBalance_found db0 "GIG00001" 150 "d" acct0
        (by simp [getCustomer, db0, acct0])
      exact hfound.2.1)

/-!  Claim C6. -/

/-- C6 is refuted as stated: `UpdateCustomerBalance` answers exactly the same
caller-visible result — success flag `false` with no error — for an id with
no customer row (empty store) as for an existing row whose version (7)
differs from the expected version (0); the code has no distinct NotFound
outcome at this call. -/
theorem C6_counterexample :
    (updateCustomerBalance { accounts := [], ledger := [] } "GIG00009" 5 "d" 0).1 = false
    ∧ (updateCustomerBalance
        { accounts := [{ customer_id := "GIG00009", asset_value := 100, term_weeks := 50,
                         total_paid := 0, outstanding_balance := 100, last_payment_date := none,
                         payment_count := 0, version := 7 }], ledger := [] }
        "GIG00009" 5 "d" 0).1 = false
    ∧ (updateCustomerBalance { accounts := [], ledger := [] } "GIG00009" 5 "d" 0).1
      = (updateCustomerBalance
          { accounts := [{ customer_id := "GIG00009", asset_value := 100, term_weeks := 50,
                           total_paid := 0, outstanding_balance := 100, last_payment_date := none,
                           payment_count := 0, version := 7 }], ledger := [] }
          "GIG00009" 5 "d" 0).1 := by
  refine ⟨?_, ?_, ?_⟩ <;> simp [updateCustomerBalance, matchRow]

/-- C6 (amended): `UpdateCustomerBalance` reports success exactly when a row
with the given id and the expected version exists; a missing row and a
version mismatch both yield the same `false` result, indistinguishable to
the caller (the worker separates NotFound only via the preceding
`GetCustomer`). -/
theorem C6_success_iff_row_matches (db : DBState) (customerID : String)
    (amount : ℚ) (txnDate : String) (version : Nat) :
    (updateCustomerBalance db customerID amount txnDate version).1 = true
      ↔ ∃ c ∈ db.accounts, c.customer_id = customerID ∧ c.version = version := by
  have hproj : (updateCustomerBalance db customerID amount txnDate version).1
      = db.accounts.any (matchRow customerID version) := by
    unfold updateCustomerBalance
    split <;> simp_all
  rw [hproj, List.any_eq_true]
  constructor
  · rintro ⟨c, hc, hm⟩
    have hm' : c.customer_id = customerID ∧ c.version = version := by
      simpa [matchRow] using hm
    exact ⟨c, hc, hm'⟩
  · rintro ⟨c, hc, h1, h2⟩
    exact ⟨c, hc, by simp [matchRow, h1, h2]⟩

/-- Witness for `C6_success_iff_row_matches` on `db0`. -/
theorem C6_success_iff_row_matches_witness :
    (updateCustomerBalance db0 "GIG00001" 5 "d" 0).1 = true :=
  (C6_success_iff_row_matches db0 "GIG00001" 5 "d" 0).mpr
    ⟨acct0, by simp [db0], rfl, rfl⟩

/-!  Claim C5: lemmas about the retry-loop trace, by induction on the
remaining iteration budget. -/

theorem processLoopFrom_zero (env : Nat → DBResp) (k : Nat) :
    processLoopFrom env k 0 = (.retryExhausted, []) := rfl

theorem processLoopFrom_succ (env : Nat → DBResp) (k n : Nat) :
    processLoopFrom env k (n + 1) =
      match env k with
      | .fetchFail => (.getCustomerError, [.fetch k])
      | .updFail => (.updateError, [.fetch k, .update k])
      | .applied => (.ok, [.fetch k, .update k])
      | .conflict =>
        ((processLoopFrom env (k + 1) n).1,
          .fetch k :: .update k :: .sleep (10 * (k + 1))
            :: (processLoopFrom env (k + 1) n).2) := rfl

theorem processLoopFrom_fetch_mem (env : Nat → DBResp) :
    ∀ fuel k j, WEvent.fetch j ∈ (processLoopFrom env k fuel).2 → k ≤ j ∧ j < k + fuel := by
  intro fuel
  induction fuel with
  | zero =>
    intro k j h
    rw [processLoopFrom_zero] at h
    simp at h
  | succ n ih =>
    intro k j h
    rw [processLoopFrom_succ] at h
    cases henv : env k <;> rw [henv] at h <;> simp at h
    · omega
    · omega
    · omega
    · rcases h with h | h
      · omega
      · have := ih (k + 1) j h
        omega

theorem processLoopFrom_update_fetch (env : Nat → DBResp) :
    ∀ fuel k j, WEvent.update j ∈ (processLoopFrom env k fuel).2 →
      WEvent.fetch j ∈ (processLoopFrom env k fuel).2 := by
  intro fuel
  induction fuel with
  | zero =>
    intro k j h
    rw [processLoopFrom_zero] at h
    simp at h
  | succ n ih =>
    intro k j h
    rw [processLoopFrom_succ] at h ⊢
    cases henv : env k
    case fetchFail =>
      rw [henv] at h
      simp at h
    case updFail =>
      rw [henv] at h
      simp at h
      subst h
      exact List.mem_cons_self _ _
    case applied =>
      rw [henv] at h
      simp at h
      subst h
      exact List.mem_cons_self _ _
    case conflict =>
      rw [henv] at h
      simp at h
      rcases h with h | h
      · subst h
        exact List.mem_cons_self _ _
      · exact List.mem_cons_of_mem _ (List.mem_cons_of_mem _
          (List.mem_cons_of_mem _ (ih (k + 1) j h)))

theorem processLoopFrom_conflict_sleep (env : Nat → DBResp) :
    ∀ fuel k j, env j = DBResp.conflict →
      WEvent.update j ∈ (processLoopFrom env k fuel).2 →
      WEvent.sleep (10 * (j + 1)) ∈ (processLoopFrom env k fuel).2 := by
  intro fuel
  induction fuel with
  | zero =>
    intro k j _ h
    rw [processLoopFrom_zero] at h
    simp at h
  | succ n ih =>
    intro k j hc h
    rw [processLoopFrom_succ] at h ⊢
    cases henv : env k
    case fetchFail =>
      rw [henv] at h
      simp at h
    case updFail =>
      rw [henv] at h
      simp at h
      subst h
      rw [hc] at henv
      cases henv
    case applied =>
      rw [henv] at h
      simp at h
      subst h
      rw [hc] at henv
      cases henv
    case conflict =>
      rw [henv] at h
      simp at h
      rcases h with h | h
      · subst h
        exact List.mem_cons_of_mem _ (List.mem_cons_of_mem _ (List.mem_cons_self _ _))
      · exact List.mem_cons_of_mem _ (List.mem_cons_of_mem _
          (List.mem_cons_of_mem _ (ih (k + 1) j hc h)))

theorem processLoopFrom_no_enqueue (env : Nat → DBResp) :
    ∀ fuel k, WEvent.enqueue ∉ (processLoopFrom env k fuel).2 := by
  intro fuel
  induction fuel with
  | zero =>
    intro k
    rw [processLoopFrom_zero]
    simp
  | succ n ih =>
    intro k
    rw [processLoopFrom_succ]
    cases henv : env k <;> simp
    exact ih (k + 1)

theorem processLoopFrom_all_conflict (env : Nat → DBResp) :
    ∀ fuel k, (∀ j, env j = DBResp.conflict) →
      (processLoopFrom env k fuel).1 = LoopResult.retryExhausted := by
  intro fuel
  induction fuel with
  | zero =>
    intro k _
    rfl
  | succ n ih =>
    intro k h
    rw [processLoopFrom_succ, h k]
    exact ih (k + 1) h

/-- C5: the worker's optimistic update loop makes at most 3 attempts (no
fetch happens at index ≥ 3); every update attempt at index `k` is preceded
by a customer re-fetch at the same index; a version conflict at attempt
index `k` puts a `10 ms × (k+1)` backoff sleep in the trace; if every
attempt conflicts the loop returns the retry-exhausted error; and the loop
never re-enqueues the item. -/
theorem C5_retry_loop (env : Nat → DBResp) :
    (∀ j, WEvent.fetch j ∈ (processLoop env).2 → j < 3)
    ∧ (∀ j, WEvent.update j ∈ (processLoop env).2 → WEvent.fetch j ∈ (processLoop env).2)
    ∧ (∀ j, env j = DBResp.conflict → WEvent.update j ∈ (processLoop env).2 →
        WEvent.sleep (10 * (j + 1)) ∈ (processLoop env).2)
    ∧ ((∀ j, env j = DBResp.conflict) → (processLoop env).1 = LoopResult.retryExhausted)
    ∧ WEvent.enqueue ∉ (processLoop env).2 := by
  refine ⟨?_, ?_, ?_, ?_, ?_⟩
  · intro j h
    have := processLoopFrom_fetch_mem env 3 0 j h
    omega
  · intro j h
    exact processLoopFrom_update_fetch env 3 0 j h
  · intro j hc h
    exact processLoopFrom_conflict_sleep env 3 0 j hc h
  · intro h
    exact processLoopFrom_all_conflict env 3 0 h
  · exact processLoopFrom_no_enqueue env 3 0

/-- Witness for `C5_retry_loop`: an environment that always answers with a
version conflict exhausts the three attempts, sleeps 20 ms after the second
one, and never re-enqueues. -/
theorem C5_retry_loop_witness :
    (processLoop (fun _ => DBResp.conflict)).1 = LoopResult.retryExhausted
    ∧ WEvent.sleep 20 ∈ (processLoop (fun _ => DBResp.conflict)).2
    ∧ WEvent.enqueue ∉ (processLoop (fun _ => DBResp.conflict)).2 := by
  obtain ⟨h1, h2, h3, h4, h5⟩ := C5_retry_loop (fun _ => DBResp.conflict)
  refine ⟨h4 (fun j => rfl), ?_, h5⟩
  have hs := h3 1 rfl (by simp [processLoop, processLoopFrom])
  simpa using hs

/-!  Claims C7 and C8: the ingestion endpoint. -/

/-- Call outcomes where the pre-enqueue customer fetch fails with a storage
error (not a missing row) and everything else would succeed. -/
def envStorageErr : IngressEnv :=
  { cacheDup := .ok false, getCustDup := .error .noRows, getCust := .error .storageErr,
    enq := .ok (), cachedBal := .ok none }

/-- Call outcomes where the customer row is genuinely missing. -/
def envNoCustomer : IngressEnv :=
  { cacheDup := .ok false, getCustDup := .error .noRows, getCust := .error .noRows,
    enq := .ok (), cachedBal := .ok none }

/-- Call outcomes on the duplicate fast path with the customer fetch
succeeding. -/
def envDup : IngressEnv :=
  { cacheDup := .ok true, getCustDup := .ok acct0, getCust := .ok acct0,
    enq := .ok (), cachedBal := .ok none }

/-- C7 is refuted as stated: when the customer existence check fails with a
storage error — a system-internal failure, not a missing customer — the
handler still answers 404, not 500, because the Go code maps every
`GetCustomer` error to the not-found response. -/
theorem C7_counterexample :
    handlePayment envStorageErr pay30 = HTTPResp.notFound404
    ∧ handlePayment envStorageErr pay30 ≠ HTTPResp.internal500 "Failed to queue payment" := by
  have h : handlePayment envStorageErr pay30 = HTTPResp.notFound404 := by
    simp [handlePayment, bindOK, startsWithGIG, requiredOK, isDuplicateResult,
      envStorageErr, pay30]
  refine ⟨h, ?_⟩
  rw [h]
  simp

/-- C7 (amended): on the non-duplicate path the handler answers 404 whenever
the pre-enqueue customer fetch errors — whether the row is missing or the
store failed — and answers 500 exactly when the fetch succeeded but the
enqueue failed. -/
theorem C7_error_mapping (env : IngressEnv) (p : PaymentPayload)
    (hbind : bindOK p = true) (hst : p.payment_status = "COMPLETE")
    (hdup : (isDuplicateResult env.cacheDup).1 = false) :
    (∀ e, env.getCust = .error e → handlePayment env p = HTTPResp.notFound404)
    ∧ (∀ c, env.getCust = .ok c → env.enq = .error () →
        handlePayment env p = HTTPResp.internal500 "Failed to queue payment") := by
  constructor
  · intro e he
    simp [handlePayment, hbind, hst, hdup, he]
  · intro c hc henq
    simp [handlePayment, hbind, hst, hdup, hc, henq]

/-- Witness for `C7_error_mapping`: a genuinely missing customer answers
404. -/
theorem C7_error_mapping_witness :
    handlePayment envNoCustomer pay30 = HTTPResp.notFound404 :=
  (C7_error_mapping envNoCustomer pay30
      (by simp [bindOK, startsWithGIG, requiredOK, pay30])
      (by simp [pay30])
      (by simp [isDuplicateResult, envNoCustomer])).1
    GetErr.noRows (by simp [envNoCustomer])

/-- C8: on the fast duplicate path — a dedup-cache hit — the endpoint
answers HTTP 200 with status "duplicate" and includes the outstanding
balance exactly when the best-effort customer fetch succeeded (a failed
fetch is tolerated and just omits the balance); and when the dedup-cache
check itself errors, the handler behaves exactly as if the cache had
answered "not a duplicate". -/
theorem C8_duplicate_path (env : IngressEnv) (p : PaymentPayload)
    (hbind : bindOK p = true) (hst : p.payment_status = "COMPLETE") :
    (env.cacheDup = .ok true →
      handlePayment env p = HTTPResp.ok200
        { status := "duplicate", message := "Transaction already processed",
          transaction_reference := p.transaction_reference,
          customer_id := p.customer_id,
          remaining_balance := env.getCustDup.toOption.map
            (fun c => c.outstanding_balance) })
    ∧ (env.cacheDup = .error () →
        handlePayment env p = handlePayment { env with cacheDup := .ok false } p) := by
  constructor
  · intro hdup
    simp only [handlePayment, hbind, hst, hdup, isDuplicateResult]
    simp only [Bool.not_true, Bool.false_eq_true, if_false, bne_self_eq_false]
    cases henv : env.getCustDup <;> simp [Except.toOption]
  · intro herr
    simp [handlePayment, hbind, hst, herr, isDuplicateResult]

/-- Witness for `C8_duplicate_path`: the cache reports `pay30`'s reference
as a duplicate and the customer fetch succeeds, so the response carries
`acct0`'s outstanding balance. -/
theorem C8_duplicate_path_witness :
    handlePayment envDup pay30 = HTTPResp.ok200
      { status := "duplicate", message := "Transaction already processed",
        transaction_reference := pay30.transaction_reference,
        customer_id := pay30.customer_id,
        remaining_balance := some acct0.outstanding_balance } := by
  have h := (C8_duplicate_path envDup pay30
      (by simp [bindOK, startsWithGIG, requiredOK, pay30])
      (by simp [pay30])).1 (by simp [envDup])
  simpa [envDup, Except.toOption] using h

/-!  Claim C9. -/

/-- C9: `DequeuePayment` pops the entry before decoding it, so on a payload
whose bytes fail to unmarshal the call returns the decode error with no
payload while the entry has already left the queue — it survives only as
that error return. -/
theorem C9_dequeue_consumes (decode : String → Option PaymentPayload)
    (b : String) (rest : List String) (h : decode b = none) :
    dequeuePayment decode (b :: rest) = (.error .decodeError, rest)
    ∧ (b ∉ rest → b ∉ (dequeuePayment decode (b :: rest)).2) := by
  constructor
  · simp [dequeuePayment, h]
  · intro hb
    simp [dequeuePayment, h]
    exact hb

/-- Witness for `C9_dequeue_consumes`: a decoder rejecting everything on the
queue entry "bad". -/
theorem C9_dequeue_consumes_witness :
    dequeuePayment (fun _ => (none : Option PaymentPayload)) ["bad", "ok"]
      = (.error .decodeError, ["ok"])
    ∧ "bad" ∉ (dequeuePayment (fun _ => (none : Option PaymentPayload)) ["bad", "ok"]).2 := by
  have h := C9_dequeue_consumes (fun _ => (none : Option PaymentPayload)) "bad" ["ok"] rfl
  exact ⟨h.1, h.2 (by simp)⟩

end GoPayment

